import Mathlib

/-
Verification of the returns/risk engine and the allocation optimizer of the
portfolio-optimization application (data_handler.py, optimizer.py).

Modelling conventions of the shallow embedding:
  * pandas DataFrames of daily data are `List (List ℚ)` (one inner list per
    row/trading day), together with an explicit column count where the code
    consults `DataFrame.shape[1]` / column alignment;
  * numpy/pandas float arithmetic is idealized over ℚ (and over ℝ for the
    standard deviations, which involve square roots);
  * Python exceptions are modelled with `Except` (the spec's names for the
    error kinds are used for the constructors);
  * Python `round(x, 4)` / `np.round(x, 4)` is modelled as exact
    round-half-to-even at 4 decimal places over ℝ;
  * NaN is not modelled: pandas produces NaN metrics for portfolio-return
    series of length < 2 (`Series.std`), or length < 1 (`mean`), so every
    theorem about `calculate_risk_metrics` carries a `2 ≤ rows.length`
    hypothesis and every theorem about `get_portfolio_performance` carries
    `1 ≤ rows.length`; similarly `pct_change` on a 0/0 price quotient is kept
    out of scope by a no-zero-price hypothesis.
-/

/-- Dot product of two rows.  Both `np.dot(returns, weights)` (optimizer.py)
and `(daily_returns * weights).sum(axis=1)` (data_handler.py) reduce rowwise
to this on matching lengths. -/
def dotRow (r w : List ℚ) : ℚ := (List.zipWith (fun a b => a * b) r w).sum

/-- The portfolio daily-return series: one dot product per row of the
daily-returns matrix. -/
def ptfSeries (rows : List (List ℚ)) (w : List ℚ) : List ℚ :=
  rows.map (fun r => dotRow r w)

/-- Arithmetic mean, `np.mean` / `Series.mean`.  Junk value 0 on the empty
list (numpy/pandas give NaN there; theorems assume a nonempty series). -/
def mean (s : List ℚ) : ℚ := s.sum / (s.length : ℚ)

/-- Population variance: the square of `np.std(s)` (numpy default ddof = 0),
used by optimizer.get_portfolio_performance. -/
def popVar (s : List ℚ) : ℚ :=
  (s.map (fun x => (x - mean s) ^ 2)).sum / (s.length : ℚ)

/-- Sample variance: the square of `Series.std()` (pandas default ddof = 1),
used by data_handler.calculate_risk_metrics.  Junk value for series of
length ≤ 1 (pandas gives NaN there; theorems assume length ≥ 2). -/
def sampleVar (s : List ℚ) : ℚ :=
  (s.map (fun x => (x - mean s) ^ 2)).sum / ((s.length - 1 : ℕ) : ℚ)

/-- Round half to even, to an integer: the rounding used by Python `round`
and `np.round`, idealized over the reals. -/
noncomputable def rhe (y : ℝ) : ℤ :=
  if y - ⌊y⌋ < 1 / 2 then ⌊y⌋
  else if y - ⌊y⌋ = 1 / 2 then (if ⌊y⌋ % 2 = 0 then ⌊y⌋ else ⌊y⌋ + 1)
  else ⌊y⌋ + 1

/-- Python `round(x, 4)` over the reals. -/
noncomputable def round4 (x : ℝ) : ℝ := ((rhe (x * 10 ^ 4) : ℤ) : ℝ) / 10 ^ 4

/-- Round half to even on the rationals (for `np.round` applied to the
optimizer's weight vector). -/
def rheQ (y : ℚ) : ℤ :=
  if y - ⌊y⌋ < 1 / 2 then ⌊y⌋
  else if y - ⌊y⌋ = 1 / 2 then (if ⌊y⌋ % 2 = 0 then ⌊y⌋ else ⌊y⌋ + 1)
  else ⌊y⌋ + 1

/-- `np.round(x, 4)` on the rationals. -/
def round4q (x : ℚ) : ℚ := ((rheQ (x * 10 ^ 4) : ℤ) : ℚ) / 10 ^ 4

theorem rhe_eq_of_lt (y : ℝ) (z : ℤ) (h1 : (z : ℝ) ≤ y) (h2 : y < (z : ℝ) + 1 / 2) :
    rhe y = z := by
  have hz : ⌊y⌋ = z := by
    rw [Int.floor_eq_iff]
    refine ⟨h1, ?_⟩
    linarith
  unfold rhe
  split_ifs with ha hb hc
  · exact hz
  · exact hz
  · rw [hz] at ha
    exact absurd (by linarith) ha
  · rw [hz] at ha
    exact absurd (by linarith) ha

theorem rhe_eq_of_gt (y : ℝ) (z : ℤ) (h1 : (z : ℝ) + 1 / 2 < y) (h2 : y < (z : ℝ) + 1) :
    rhe y = z + 1 := by
  have hz : ⌊y⌋ = z := by
    rw [Int.floor_eq_iff]
    refine ⟨by linarith, ?_⟩
    linarith
  unfold rhe
  split_ifs with ha hb hc
  · exfalso; rw [hz] at ha; linarith
  · exfalso; rw [hz] at hb; linarith
  · exfalso; rw [hz] at hb; linarith
  · rw [hz]

theorem round4_eq_of_lt (x : ℝ) (z : ℤ) (h1 : (z : ℝ) ≤ x * 10 ^ 4)
    (h2 : x * 10 ^ 4 < (z : ℝ) + 1 / 2) : round4 x = (z : ℝ) / 10 ^ 4 := by
  rw [round4, rhe_eq_of_lt _ z h1 h2]

theorem round4_eq_of_gt (x : ℝ) (z : ℤ) (h1 : (z : ℝ) + 1 / 2 < x * 10 ^ 4)
    (h2 : x * 10 ^ 4 < (z : ℝ) + 1) : round4 x = ((z : ℝ) + 1) / 10 ^ 4 := by
  rw [round4, rhe_eq_of_gt _ z h1 h2]
  push_cast
  ring

theorem round4_zero : round4 (0 : ℝ) = 0 := by
  rw [round4_eq_of_lt 0 0 (by norm_num) (by norm_num)]
  norm_num

/-- `np.std(s) : population` standard deviation, as a real number. -/
noncomputable def popStd (s : List ℚ) : ℝ := Real.sqrt ((popVar s : ℚ) : ℝ)

/-- `Series.std() : sample` standard deviation (ddof = 1), as a real number. -/
noncomputable def sampleStd (s : List ℚ) : ℝ := Real.sqrt ((sampleVar s : ℚ) : ℝ)

/-- The metric triple returned (as a dict) by
data_handler.calculate_risk_metrics. -/
structure RiskMetrics where
  annualReturn : ℝ
  volatility : ℝ
  sharpe : ℝ

/-- optimizer.get_portfolio_performance: annualized return, volatility and
Sharpe ratio of `np.dot(returns, weights)`, with population standard
deviation (`np.std`) and no rounding.  The Sharpe ratio falls back to 0
exactly when the volatility is 0. -/
noncomputable def get_portfolio_performance (w : List ℚ) (rows : List (List ℚ)) :
    ℝ × ℝ × ℝ :=
  (((mean (ptfSeries rows w) : ℚ) : ℝ) * 252,
   popStd (ptfSeries rows w) * Real.sqrt 252,
   if popStd (ptfSeries rows w) * Real.sqrt 252 ≠ 0 then
     ((mean (ptfSeries rows w) : ℚ) : ℝ) * 252 /
       (popStd (ptfSeries rows w) * Real.sqrt 252)
   else 0)

/-- Error kinds of the returns engine (spec taxonomy; realized in the code as
pandas/NumPy `ValueError`s). -/
inductive DHError where
  | dimensionMismatch
deriving DecidableEq

/-- data_handler.calculate_portfolio_return: `(daily_returns * weights).sum(axis=1)`.
pandas raises a ValueError (spec: DimensionMismatchError) when the weight
count differs from the DataFrame's column count `ncols`. -/
def calculate_portfolio_return (ncols : ℕ) (rows : List (List ℚ)) (w : List ℚ) :
    Except DHError (List ℚ) :=
  if w.length = ncols then Except.ok (ptfSeries rows w)
  else Except.error DHError.dimensionMismatch

/-- The body of data_handler.calculate_risk_metrics once the portfolio-return
series is available: `mean * 252`, `std * sqrt(252)` with the pandas sample
standard deviation, Sharpe ratio from the unrounded values (0 if the
volatility is exactly 0), each rounded to 4 decimal places. -/
noncomputable def riskTriple (s : List ℚ) : RiskMetrics :=
  ⟨round4 (((mean s : ℚ) : ℝ) * 252),
   round4 (sampleStd s * Real.sqrt 252),
   round4 (if sampleStd s * Real.sqrt 252 ≠ 0 then
       ((mean s : ℚ) : ℝ) * 252 / (sampleStd s * Real.sqrt 252)
     else 0)⟩

/-- data_handler.calculate_risk_metrics (a dimension mismatch inside
calculate_portfolio_return propagates). -/
noncomputable def calculate_risk_metrics (ncols : ℕ) (rows : List (List ℚ))
    (w : List ℚ) : Except DHError RiskMetrics :=
  (calculate_portfolio_return ncols rows w).map riskTriple

/-- Spec §4.1 and glossary: mean of the portfolio-return series, stated
directly over ℝ. -/
noncomputable def specMean (s : List ℚ) : ℝ :=
  (s.map (fun x : ℚ => (x : ℝ))).sum / (s.length : ℝ)

/-- Spec §4.1: population standard deviation of the series, over ℝ. -/
noncomputable def specPopStd (s : List ℚ) : ℝ :=
  Real.sqrt ((s.map (fun x : ℚ => ((x : ℝ) - specMean s) ^ 2)).sum / (s.length : ℝ))

/-- Sample standard deviation (ddof = 1) of the series, over ℝ; the estimator
actually used by data_handler.calculate_risk_metrics. -/
noncomputable def specSampleStd (s : List ℚ) : ℝ :=
  Real.sqrt ((s.map (fun x : ℚ => ((x : ℝ) - specMean s) ^ 2)).sum /
    ((s.length - 1 : ℕ) : ℝ))

theorem cast_list_sum (s : List ℚ) :
    ((s.sum : ℚ) : ℝ) = (s.map (fun x : ℚ => (x : ℝ))).sum :=
  Rat.cast_list_sum s

theorem specMean_eq (s : List ℚ) : specMean s = ((mean s : ℚ) : ℝ) := by
  rw [specMean, mean, Rat.cast_div, cast_list_sum]
  norm_num

theorem cast_sq_sum (s : List ℚ) (m : ℚ) :
    (((s.map (fun x => (x - m) ^ 2)).sum : ℚ) : ℝ) =
      (s.map (fun x : ℚ => ((x : ℝ) - ((m : ℚ) : ℝ)) ^ 2)).sum := by
  rw [Rat.cast_list_sum, List.map_map]
  refine congrArg List.sum (List.map_congr_left ?_)
  intro x _
  simp only [Function.comp_apply]
  push_cast
  ring

theorem specPopStd_eq (s : List ℚ) : specPopStd s = popStd s := by
  rw [specPopStd, popStd, popVar]
  congr 1
  rw [specMean_eq, Rat.cast_div, cast_sq_sum]
  norm_num

theorem specSampleStd_eq (s : List ℚ) : specSampleStd s = sampleStd s := by
  rw [specSampleStd, sampleStd, sampleVar]
  congr 1
  rw [specMean_eq, Rat.cast_div, cast_sq_sum]
  norm_num

/-- Concrete 3-day, 1-asset daily-returns matrix used to separate the two
standard-deviation conventions and to expose the 4-decimal rounding: the
portfolio-return series (with weight vector `[1]`) has mean 1/100000, sample
variance 7/10000 and population variance 7/15000. -/
def cexRows : List (List ℚ) := [[1001/100000], [2001/100000], [-2999/100000]]

theorem cex_series :
    ptfSeries cexRows [1] = [1001/100000, 2001/100000, -2999/100000] := by
  simp [ptfSeries, cexRows, dotRow]

theorem cex_mean : mean (ptfSeries cexRows [1]) = 1 / 100000 := by
  rw [cex_series]
  norm_num [mean, List.sum_cons, List.sum_nil]

theorem cex_sampleVar : sampleVar (ptfSeries cexRows [1]) = 7 / 10000 := by
  rw [cex_series]
  norm_num [sampleVar, mean, List.sum_cons, List.sum_nil]

theorem cex_popVar : popVar (ptfSeries cexRows [1]) = 7 / 15000 := by
  rw [cex_series]
  norm_num [popVar, mean, List.sum_cons, List.sum_nil]

theorem cex_vol : sampleStd (ptfSeries cexRows [1]) * Real.sqrt 252 = 21 / 50 := by
  rw [sampleStd, cex_sampleVar]
  have h7 : (((7 : ℚ) / 10000 : ℚ) : ℝ) = 7 / 10000 := by norm_num
  rw [h7, ← Real.sqrt_mul (by norm_num : (0:ℝ) ≤ 7 / 10000)]
  have h8 : (7 / 10000 * 252 : ℝ) = (21 / 50) ^ 2 := by norm_num
  rw [h8, Real.sqrt_sq (by norm_num : (0:ℝ) ≤ 21 / 50)]

theorem cex_crm :
    calculate_risk_metrics 1 cexRows [1] = Except.ok ⟨1/400, 21/50, 3/500⟩ := by
  have hmean : ((mean (ptfSeries cexRows [1]) : ℚ) : ℝ) = 1 / 100000 := by
    rw [cex_mean]; norm_num
  have hr : round4 (((mean (ptfSeries cexRows [1]) : ℚ) : ℝ) * 252) = 1 / 400 := by
    rw [hmean, round4_eq_of_lt _ 25 (by norm_num) (by norm_num)]
    norm_num
  have hv : round4 (sampleStd (ptfSeries cexRows [1]) * Real.sqrt 252) = 21 / 50 := by
    rw [cex_vol, round4_eq_of_lt _ 4200 (by norm_num) (by norm_num)]
    norm_num
  have hsh : round4 (if sampleStd (ptfSeries cexRows [1]) * Real.sqrt 252 ≠ 0 then
      ((mean (ptfSeries cexRows [1]) : ℚ) : ℝ) * 252 /
        (sampleStd (ptfSeries cexRows [1]) * Real.sqrt 252)
    else 0) = 3 / 500 := by
    rw [cex_vol, hmean, if_pos (by norm_num : (21 / 50 : ℝ) ≠ 0)]
    have h6 : (1 / 100000 * 252 / (21 / 50) : ℝ) = 3 / 500 := by norm_num
    rw [h6, round4_eq_of_lt _ 60 (by norm_num) (by norm_num)]
    norm_num
  have hcp : calculate_portfolio_return 1 cexRows [1] =
      Except.ok (ptfSeries cexRows [1]) := by
    simp [calculate_portfolio_return]
  unfold calculate_risk_metrics
  rw [hcp]
  show Except.ok (riskTriple (ptfSeries cexRows [1])) = _
  unfold riskTriple
  rw [hr, hv, hsh]

/-- Claim C1, counterexample.  The original claim fails for
data_handler.calculate_risk_metrics: on the concrete matrix `cexRows` with
weights `[1]` the returned Annual Return is 1/400 = 0.0025, not
mean × 252 = 0.00252 (4-decimal rounding), and the returned Volatility is
21/50 = 0.42 (pandas sample standard deviation × √252, rounded), not the
population standard deviation × √252 = √0.1176. -/
theorem C1_cex :
    calculate_risk_metrics 1 cexRows [1] = Except.ok ⟨1/400, 21/50, 3/500⟩ ∧
    (1 : ℝ) / 400 ≠ specMean (ptfSeries cexRows [1]) * 252 ∧
    (21 : ℝ) / 50 ≠ specPopStd (ptfSeries cexRows [1]) * Real.sqrt 252 := by
  refine ⟨cex_crm, ?_, ?_⟩
  · rw [specMean_eq, cex_mean]
    norm_num
  · rw [specPopStd_eq]
    have hpv : popStd (ptfSeries cexRows [1]) * Real.sqrt 252 =
        Real.sqrt (1764 / 15000) := by
      rw [popStd, cex_popVar]
      have h7 : (((7 : ℚ) / 15000 : ℚ) : ℝ) = 7 / 15000 := by norm_num
      rw [h7, ← Real.sqrt_mul (by norm_num : (0:ℝ) ≤ 7 / 15000)]
      have h9 : (7 / 15000 * 252 : ℝ) = 1764 / 15000 := by norm_num
      rw [h9]
    rw [hpv]
    intro h
    have h2 := congrArg (fun t : ℝ => t ^ 2) h
    simp only at h2
    rw [Real.sq_sqrt (by norm_num : (0:ℝ) ≤ 1764 / 15000)] at h2
    norm_num at h2

/-- Claim C1 (amended): optimizer.get_portfolio_performance returns exactly
Annual Return = mean × 252, Volatility = population standard deviation × √252
and Sharpe Ratio = Annual Return / Volatility (0 when the volatility is 0);
data_handler.calculate_risk_metrics computes the same three quantities but
with the sample standard deviation (pandas ddof = 1) in place of the
population one, and returns each of them rounded to 4 decimal places. -/
theorem C1_metrics (n : ℕ) (rows : List (List ℚ)) (w : List ℚ)
    (hrect : ∀ r ∈ rows, r.length = n) (hw : w.length = n)
    (h1 : 1 ≤ rows.length) :
    get_portfolio_performance w rows =
      (specMean (ptfSeries rows w) * 252,
       specPopStd (ptfSeries rows w) * Real.sqrt 252,
       if specPopStd (ptfSeries rows w) * Real.sqrt 252 ≠ 0 then
         specMean (ptfSeries rows w) * 252 /
           (specPopStd (ptfSeries rows w) * Real.sqrt 252)
       else 0) ∧
    (2 ≤ rows.length →
      calculate_risk_metrics n rows w =
        Except.ok ⟨round4 (specMean (ptfSeries rows w) * 252),
                   round4 (specSampleStd (ptfSeries rows w) * Real.sqrt 252),
                   round4 (if specSampleStd (ptfSeries rows w) * Real.sqrt 252 ≠ 0 then
                       specMean (ptfSeries rows w) * 252 /
                         (specSampleStd (ptfSeries rows w) * Real.sqrt 252)
                     else 0)⟩) := by
  constructor
  · rw [specMean_eq, specPopStd_eq]
    rfl
  · intro _
    rw [specMean_eq, specSampleStd_eq]
    have hcp : calculate_portfolio_return n rows w =
        Except.ok (ptfSeries rows w) := by
      unfold calculate_portfolio_return
      rw [if_pos hw]
    unfold calculate_risk_metrics
    rw [hcp]
    rfl

/-- Witness for C1_metrics at a concrete 2-day, 1-asset matrix. -/
theorem C1_metrics_witness :
    (∀ r ∈ ([[1/100], [2/100]] : List (List ℚ)), r.length = 1) ∧
    2 ≤ ([[1/100], [2/100]] : List (List ℚ)).length ∧
    (get_portfolio_performance [1] [[1/100], [2/100]] =
      (specMean (ptfSeries [[1/100], [2/100]] [1]) * 252,
       specPopStd (ptfSeries [[1/100], [2/100]] [1]) * Real.sqrt 252,
       if specPopStd (ptfSeries [[1/100], [2/100]] [1]) * Real.sqrt 252 ≠ 0 then
         specMean (ptfSeries [[1/100], [2/100]] [1]) * 252 /
           (specPopStd (ptfSeries [[1/100], [2/100]] [1]) * Real.sqrt 252)
       else 0)) ∧
    calculate_risk_metrics 1 [[1/100], [2/100]] [1] =
      Except.ok ⟨round4 (specMean (ptfSeries [[1/100], [2/100]] [1]) * 252),
                 round4 (specSampleStd (ptfSeries [[1/100], [2/100]] [1]) *
                   Real.sqrt 252),
                 round4 (if specSampleStd (ptfSeries [[1/100], [2/100]] [1]) *
                       Real.sqrt 252 ≠ 0 then
                     specMean (ptfSeries [[1/100], [2/100]] [1]) * 252 /
                       (specSampleStd (ptfSeries [[1/100], [2/100]] [1]) *
                         Real.sqrt 252)
                   else 0)⟩ := by
  have hrect : ∀ r ∈ ([[1/100], [2/100]] : List (List ℚ)), r.length = 1 := by
    simp [List.forall_mem_cons]
  refine ⟨hrect, by norm_num, ?_, ?_⟩
  · exact (C1_metrics 1 _ [1] hrect rfl (by norm_num)).1
  · exact (C1_metrics 1 _ [1] hrect rfl (by norm_num)).2 (by norm_num)

/-- Claim C2 (confirmed): in both implementations the Sharpe ratio is 0 when
the (unrounded) volatility is exactly 0, and is the exact quotient otherwise
(no tolerance band); no division fault can occur since the guarded branch is
total. -/
theorem C2_zero_vol (n : ℕ) (rows : List (List ℚ)) (w : List ℚ)
    (hw : w.length = n) :
    ((get_portfolio_performance w rows).2.1 = 0 →
      (get_portfolio_performance w rows).2.2 = 0) ∧
    ((get_portfolio_performance w rows).2.1 ≠ 0 →
      (get_portfolio_performance w rows).2.2 =
        (get_portfolio_performance w rows).1 /
          (get_portfolio_performance w rows).2.1) ∧
    (2 ≤ rows.length → sampleStd (ptfSeries rows w) * Real.sqrt 252 = 0 →
      calculate_risk_metrics n rows w =
        Except.ok ⟨round4 (((mean (ptfSeries rows w) : ℚ) : ℝ) * 252), 0, 0⟩) := by
  refine ⟨?_, ?_, ?_⟩
  · intro h
    dsimp only [get_portfolio_performance] at h ⊢
    rw [if_neg (not_not_intro h)]
  · intro h
    dsimp only [get_portfolio_performance] at h ⊢
    rw [if_pos h]
  · intro _ hv
    have hcp : calculate_portfolio_return n rows w =
        Except.ok (ptfSeries rows w) := by
      unfold calculate_portfolio_return
      rw [if_pos hw]
    unfold calculate_risk_metrics
    rw [hcp]
    show Except.ok (riskTriple (ptfSeries rows w)) = _
    unfold riskTriple
    rw [hv, if_neg (by simp), round4_zero]

/-- Witness for C2_zero_vol at a constant 2-day series (volatility 0). -/
theorem C2_zero_vol_witness :
    (get_portfolio_performance [1] [[1/100], [1/100]]).2.2 = 0 ∧
    calculate_risk_metrics 1 [[1/100], [1/100]] [1] =
      Except.ok ⟨round4 (((mean (ptfSeries [[1/100], [1/100]] [1]) : ℚ) : ℝ) * 252),
                 0, 0⟩ := by
  have hS : ptfSeries [[1/100], [1/100]] [1] = [1/100, 1/100] := by
    simp [ptfSeries, dotRow]
  have hsv : sampleVar (ptfSeries [[1/100], [1/100]] [1]) = 0 := by
    rw [hS]; norm_num [sampleVar, mean, List.sum_cons, List.sum_nil]
  have hpv : popVar (ptfSeries [[1/100], [1/100]] [1]) = 0 := by
    rw [hS]; norm_num [popVar, mean, List.sum_cons, List.sum_nil]
  have hvols : sampleStd (ptfSeries [[1/100], [1/100]] [1]) * Real.sqrt 252 = 0 := by
    rw [sampleStd, hsv]
    simp
  have hvolp : (get_portfolio_performance [1] [[1/100], [1/100]]).2.1 = 0 := by
    dsimp only [get_portfolio_performance]
    rw [popStd, hpv]
    simp
  exact ⟨(C2_zero_vol 1 _ [1] rfl).1 hvolp,
    (C2_zero_vol 1 _ [1] rfl).2.2 (by norm_num) hvols⟩

/-- Claim C10 (confirmed): calculate_risk_metrics returns all three metrics
rounded to 4 decimal places, with the Sharpe ratio computed from the
unrounded annual return and unrounded volatility before its own rounding;
on `cexRows` the returned Sharpe ratio 3/500 = 0.006 differs from the
quotient of the returned rounded values (0.0025 / 0.42). -/
theorem C10_rounding (n : ℕ) (rows : List (List ℚ)) (w : List ℚ)
    (hw : w.length = n) (h2 : 2 ≤ rows.length) :
    calculate_risk_metrics n rows w =
      Except.ok ⟨round4 (((mean (ptfSeries rows w) : ℚ) : ℝ) * 252),
                 round4 (sampleStd (ptfSeries rows w) * Real.sqrt 252),
                 round4 (if sampleStd (ptfSeries rows w) * Real.sqrt 252 ≠ 0 then
                     ((mean (ptfSeries rows w) : ℚ) : ℝ) * 252 /
                       (sampleStd (ptfSeries rows w) * Real.sqrt 252)
                   else 0)⟩ ∧
    (calculate_risk_metrics 1 cexRows [1] = Except.ok ⟨1/400, 21/50, 3/500⟩ ∧
      (3 : ℝ) / 500 ≠ 1/400 / (21/50)) := by
  refine ⟨?_, cex_crm, by norm_num⟩
  have hcp : calculate_portfolio_return n rows w =
      Except.ok (ptfSeries rows w) := by
    unfold calculate_portfolio_return
    rw [if_pos hw]
  unfold calculate_risk_metrics
  rw [hcp]
  rfl

/-- Witness for C10_rounding at a concrete 2-day, 1-asset matrix. -/
theorem C10_rounding_witness :
    ([(1:ℚ)].length = 1) ∧ 2 ≤ ([[3/100], [5/100]] : List (List ℚ)).length ∧
    (calculate_risk_metrics 1 [[3/100], [5/100]] [1] =
      Except.ok ⟨round4 (((mean (ptfSeries [[3/100], [5/100]] [1]) : ℚ) : ℝ) * 252),
                 round4 (sampleStd (ptfSeries [[3/100], [5/100]] [1]) * Real.sqrt 252),
                 round4 (if sampleStd (ptfSeries [[3/100], [5/100]] [1]) *
                       Real.sqrt 252 ≠ 0 then
                     ((mean (ptfSeries [[3/100], [5/100]] [1]) : ℚ) : ℝ) * 252 /
                       (sampleStd (ptfSeries [[3/100], [5/100]] [1]) * Real.sqrt 252)
                   else 0)⟩ ∧
      (calculate_risk_metrics 1 cexRows [1] = Except.ok ⟨1/400, 21/50, 3/500⟩ ∧
        (3 : ℝ) / 500 ≠ 1/400 / (21/50))) :=
  ⟨rfl, by norm_num, C10_rounding 1 _ [1] rfl (by norm_num)⟩

/-- Error kind of the allocation optimizer (spec: InvalidObjectiveError;
realized in optimizer.py as `ValueError("Invalid optimization method...")`). -/
inductive OptError where
  | invalidObjective
deriving DecidableEq

/-- The dict returned by optimizer.optimize_portfolio: the weights rounded to
4 decimals (`np.round`), and the three performance metrics rounded to 4
decimals (`round`). -/
structure OptResult where
  optimalWeights : List ℚ
  annualReturn : ℝ
  volatility : ℝ
  sharpe : ℝ

/-- The result assembly at the end of optimizer.optimize_portfolio, applied
to the weights delivered by the solver. -/
noncomputable def mkOptResult (w : List ℚ) (rows : List (List ℚ)) : OptResult :=
  ⟨w.map round4q,
   round4 (get_portfolio_performance w rows).1,
   round4 (get_portfolio_performance w rows).2.1,
   round4 (get_portfolio_performance w rows).2.2⟩

/-- optimizer.optimize_portfolio, parameterized by the numerical solver
(`scipy.optimize.minimize` with method SLSQP, an external collaborator): the
solver receives the objective function selected by `method` and the
equal-weight starting point `[1/N, ..., 1/N]`; any other selector string is
rejected before the solver is consulted.  (The bounds and the sum-to-one
constraint of the Python call are data consumed only by the external solver,
so they are absorbed into the `solver` parameter.) -/
noncomputable def optimize_portfolio (solver : (List ℚ → ℝ) → List ℚ → List ℚ)
    (ncols : ℕ) (rows : List (List ℚ)) (method : String) :
    Except OptError OptResult :=
  if method = "sharpe" then
    Except.ok (mkOptResult
      (solver (fun x => -(get_portfolio_performance x rows).2.2)
        (List.replicate ncols (1 / (ncols : ℚ)))) rows)
  else if method = "min_vol" then
    Except.ok (mkOptResult
      (solver (fun x => (get_portfolio_performance x rows).2.1)
        (List.replicate ncols (1 / (ncols : ℚ)))) rows)
  else Except.error OptError.invalidObjective

/-- Claim C3 (confirmed): for every objective selector other than "sharpe"
and "min_vol", optimize_portfolio fails with InvalidObjectiveError, and the
result is the same for every solver, i.e. the solver is never invoked and the
objective never evaluated.  (The `1 ≤ ncols` hypothesis keeps the Python
`1.0 / assets_count` seed, computed before the selector check, well defined.) -/
theorem C3_invalid_objective (solver : (List ℚ → ℝ) → List ℚ → List ℚ)
    (ncols : ℕ) (rows : List (List ℚ)) (method : String) (hn : 1 ≤ ncols)
    (hs : method ≠ "sharpe") (hm : method ≠ "min_vol") :
    optimize_portfolio solver ncols rows method =
      Except.error OptError.invalidObjective := by
  unfold optimize_portfolio
  rw [if_neg hs, if_neg hm]

/-- Witness for C3_invalid_objective with the selector "foo". -/
theorem C3_invalid_objective_witness :
    ("foo" ≠ "sharpe") ∧ ("foo" ≠ "min_vol") ∧
    optimize_portfolio (fun _ x => x) 2 [[1/100, 2/100]] "foo" =
      Except.error OptError.invalidObjective :=
  ⟨by decide, by decide,
    C3_invalid_objective (fun _ x => x) 2 [[1/100, 2/100]] "foo" (by norm_num)
      (by decide) (by decide)⟩

/-- Total indexing of a mapped list: below the length, `getD` commutes with
`map` (the defaults are irrelevant there). -/
theorem getD_map_of_lt {α β : Type} (f : α → β) (d : α) (e : β) :
    ∀ (l : List α) (i : ℕ), i < l.length → (l.map f).getD i e = f (l.getD i d) := by
  intro l
  induction l with
  | nil => intro i hi; simp at hi
  | cons a t ih =>
    intro i hi
    cases i with
    | zero => rfl
    | succ j =>
      simp only [List.map_cons, List.getD_cons_succ]
      exact ih j (by simpa using hi)

/-- Total indexing of a zipWith: below both lengths, `getD` distributes. -/
theorem getD_zipWith_of_lt (f : ℚ → ℚ → ℚ) :
    ∀ (u v : List ℚ) (i : ℕ), i < u.length → i < v.length →
      (List.zipWith f u v).getD i 0 = f (u.getD i 0) (v.getD i 0) := by
  intro u
  induction u with
  | nil => intro v i hi _; simp at hi
  | cons a t ih =>
    intro v i hi hv
    cases v with
    | nil => simp at hv
    | cons b s =>
      cases i with
      | zero => rfl
      | succ j =>
        simp only [List.zipWith_cons_cons, List.getD_cons_succ]
        exact ih s j (by simpa using hi) (by simpa using hv)

theorem getD_mem {α : Type} : ∀ (l : List α) (i : ℕ) (d : α), i < l.length →
    l.getD i d ∈ l := by
  intro l
  induction l with
  | nil => intro i d hi; simp at hi
  | cons a t ih =>
    intro i d hi
    cases i with
    | zero => exact List.mem_cons_self a t
    | succ j => exact List.mem_cons_of_mem a (ih j d (by simpa using hi))

/-- The running elementwise-product chain of a first row `a` followed by the
rows `rs`: the rowwise unfolding of `DataFrame.cumprod()`. -/
def chainOf (a : List ℚ) : List (List ℚ) → List (List ℚ)
  | [] => [a]
  | r :: rs => a :: chainOf (List.zipWith (fun x y => x * y) a r) rs

/-- `DataFrame.cumprod()` on a list of rows. -/
def cumprod : List (List ℚ) → List (List ℚ)
  | [] => []
  | r :: rs => chainOf r rs

/-- data_handler.calculate_cumulative_returns:
`(1 + daily_returns).cumprod() - 1`, rowwise. -/
def calculate_cumulative_returns (dr : List (List ℚ)) : List (List ℚ) :=
  (cumprod (dr.map (List.map (fun x => 1 + x)))).map (List.map (fun y => y - 1))

theorem chainOf_length : ∀ (rs : List (List ℚ)) (a : List ℚ),
    (chainOf a rs).length = rs.length + 1 := by
  intro rs
  induction rs with
  | nil => intro a; rfl
  | cons r t ih => intro a; simp [chainOf, ih]

theorem chainOf_getD_zero (rs : List (List ℚ)) (a : List ℚ) :
    (chainOf a rs).getD 0 [] = a := by
  cases rs <;> rfl

theorem chainOf_getD_succ : ∀ (rs : List (List ℚ)) (a : List ℚ) (t : ℕ),
    t < rs.length →
    (chainOf a rs).getD (t + 1) [] =
      List.zipWith (fun x y => x * y) ((chainOf a rs).getD t []) (rs.getD t []) := by
  intro rs
  induction rs with
  | nil => intro a t ht; simp at ht
  | cons r rest ih =>
    intro a t ht
    cases t with
    | zero =>
      simp only [chainOf, List.getD_cons_succ, List.getD_cons_zero,
        chainOf_getD_zero]
    | succ u =>
      have hu : u < rest.length := by simpa using ht
      simp only [chainOf, List.getD_cons_succ]
      exact ih (List.zipWith (fun x y => x * y) a r) u hu

theorem chainOf_row_len (n : ℕ) : ∀ (rs : List (List ℚ)) (a : List ℚ),
    a.length = n → (∀ r ∈ rs, r.length = n) →
    ∀ q ∈ chainOf a rs, q.length = n := by
  intro rs
  induction rs with
  | nil =>
    intro a ha _ q hq
    simp only [chainOf, List.mem_singleton] at hq
    subst hq
    exact ha
  | cons r rest ih =>
    intro a ha hr q hq
    simp only [chainOf, List.mem_cons] at hq
    rcases hq with hq | hq
    · subst hq; exact ha
    · refine ih (List.zipWith (fun x y => x * y) a r) ?_ ?_ q hq
      · rw [List.length_zipWith, ha, hr r (List.mem_cons_self r rest)]
        exact min_self n
      · intro p hp
        exact hr p (List.mem_cons_of_mem r hp)

theorem map_one_add_sub_one (r : List ℚ) :
    (r.map (fun x => 1 + x)).map (fun y => y - 1) = r := by
  induction r with
  | nil => rfl
  | cons a t ih => simp [ih]

/-- Claim C5, counterexample: on the one-day matrix `[[1/100]]` the
cumulative-return series starts at 1/100 (the first daily return), not at 0
as the claim states. -/
theorem C5_cex :
    calculate_cumulative_returns [[1/100]] = [[1/100]] ∧ (1 : ℚ)/100 ≠ 0 := by
  constructor
  · simp [calculate_cumulative_returns, cumprod, chainOf]
  · norm_num

/-- Claim C5 (amended): the first row of calculate_cumulative_returns equals
the first row of the daily-returns matrix (not 0), and for every later index
t the recurrence cumulativeReturn[t] =
(1 + cumulativeReturn[t-1]) · (1 + dailyReturn[t]) − 1 holds entrywise. -/
theorem C5_recurrence (n : ℕ) (dr : List (List ℚ))
    (hrect : ∀ r ∈ dr, r.length = n) :
    (0 < dr.length →
      (calculate_cumulative_returns dr).getD 0 [] = dr.getD 0 []) ∧
    (∀ t i, t + 1 < dr.length → i < n →
      ((calculate_cumulative_returns dr).getD (t + 1) []).getD i 0 =
        (1 + ((calculate_cumulative_returns dr).getD t []).getD i 0) *
          (1 + (dr.getD (t + 1) []).getD i 0) - 1) := by
  cases dr with
  | nil =>
    constructor
    · intro h; simp at h
    · intro t i ht _; simp at ht
  | cons d ds =>
    have hdlen : d.length = n := hrect d (List.mem_cons_self d ds)
    have hccr : calculate_cumulative_returns (d :: ds) =
        (chainOf (d.map (fun x : ℚ => 1 + x))
            (ds.map (List.map (fun x : ℚ => 1 + x)))).map
          (List.map (fun y : ℚ => y - 1)) := rfl
    rw [hccr]
    set C := chainOf (d.map (fun x : ℚ => 1 + x))
        (ds.map (List.map (fun x : ℚ => 1 + x))) with hCdef
    have lenC : C.length = ds.length + 1 := by
      rw [hCdef, chainOf_length, List.length_map]
    have hrowsC : ∀ q ∈ C, q.length = n := by
      rw [hCdef]
      refine chainOf_row_len n _ _ ?_ ?_
      · rw [List.length_map, hdlen]
      · intro r hr
        rcases List.mem_map.mp hr with ⟨p, hp, hpr⟩
        rw [← hpr, List.length_map]
        exact hrect p (List.mem_cons_of_mem d hp)
    constructor
    · intro _
      rw [getD_map_of_lt (List.map (fun y : ℚ => y - 1)) [] [] C 0
        (by rw [lenC]; omega)]
      rw [hCdef, chainOf_getD_zero, map_one_add_sub_one]
      rfl
    · intro t i ht hi
      have ht' : t < ds.length := by simpa using ht
      have h1 : (C.map (List.map (fun y : ℚ => y - 1))).getD (t + 1) [] =
          List.map (fun y : ℚ => y - 1) (C.getD (t + 1) []) :=
        getD_map_of_lt _ [] [] C (t + 1) (by rw [lenC]; omega)
      have h0 : (C.map (List.map (fun y : ℚ => y - 1))).getD t [] =
          List.map (fun y : ℚ => y - 1) (C.getD t []) :=
        getD_map_of_lt _ [] [] C t (by rw [lenC]; omega)
      have hsucc : C.getD (t + 1) [] =
          List.zipWith (fun x y => x * y) (C.getD t [])
            ((ds.map (List.map (fun x : ℚ => 1 + x))).getD t []) := by
        rw [hCdef]
        exact chainOf_getD_succ _ _ t (by rw [List.length_map]; exact ht')
      have hmapds : (ds.map (List.map (fun x : ℚ => 1 + x))).getD t [] =
          List.map (fun x : ℚ => 1 + x) (ds.getD t []) :=
        getD_map_of_lt _ [] [] ds t ht'
      have hCtlen : (C.getD t []).length = n :=
        hrowsC _ (getD_mem C t [] (by rw [lenC]; omega))
      have hdst : (ds.getD t []).length = n :=
        hrect _ (List.mem_cons_of_mem d (getD_mem ds t [] ht'))
      rw [h1, h0, hsucc, hmapds]
      rw [getD_map_of_lt (fun y : ℚ => y - 1) 0 0
        (List.zipWith (fun x y => x * y) (C.getD t [])
          (List.map (fun x : ℚ => 1 + x) (ds.getD t []))) i
        (by rw [List.length_zipWith, hCtlen, List.length_map, hdst]; omega)]
      rw [getD_zipWith_of_lt (fun x y => x * y) _ _ i (by rw [hCtlen]; omega)
        (by rw [List.length_map, hdst]; omega)]
      rw [getD_map_of_lt (fun x : ℚ => 1 + x) 0 0 (ds.getD t []) i
        (by rw [hdst]; omega)]
      rw [getD_map_of_lt (fun y : ℚ => y - 1) 0 0 (C.getD t []) i
        (by rw [hCtlen]; omega)]
      rw [List.getD_cons_succ]
      ring

/-- Witness for C5_recurrence at a concrete 2-day, 1-asset matrix. -/
theorem C5_recurrence_witness :
    (∀ r ∈ ([[1/10], [2/10]] : List (List ℚ)), r.length = 1) ∧
    (calculate_cumulative_returns [[1/10], [2/10]]).getD 0 [] =
      ([[1/10], [2/10]] : List (List ℚ)).getD 0 [] ∧
    ((calculate_cumulative_returns [[1/10], [2/10]]).getD 1 []).getD 0 0 =
      (1 + ((calculate_cumulative_returns [[1/10], [2/10]]).getD 0 []).getD 0 0) *
        (1 + (([[1/10], [2/10]] : List (List ℚ)).getD 1 []).getD 0 0) - 1 := by
  have hrect : ∀ r ∈ ([[1/10], [2/10]] : List (List ℚ)), r.length = 1 := by
    simp [List.forall_mem_cons]
  exact ⟨hrect, (C5_recurrence 1 _ hrect).1 (by norm_num),
    (C5_recurrence 1 _ hrect).2 0 0 (by norm_num) (by norm_num)⟩

/-- Rows of `prices.pct_change()` after the first: each entry is
current / previous − 1, always defined (`some`). -/
def pctFrom (prev : List ℚ) : List (List ℚ) → List (List (Option ℚ))
  | [] => []
  | r :: rs => List.zipWith (fun a b => some (b / a - 1)) prev r :: pctFrom r rs

/-- `prices.pct_change()`: the first row is all-NaN (`none`), every later row
holds the entrywise percentage changes. -/
def pct_change (prices : List (List ℚ)) : List (List (Option ℚ)) :=
  match prices with
  | [] => []
  | r :: rs => r.map (fun _ => (none : Option ℚ)) :: pctFrom r rs

/-- A row survives `dropna()` exactly when it has no NaN (`none`) entry. -/
def rowDropna : List (Option ℚ) → Option (List ℚ)
  | [] => some []
  | none :: _ => none
  | some x :: xs => (rowDropna xs).map (fun t => x :: t)

/-- `DataFrame.dropna()`: keep the rows with no NaN entry. -/
def dropna (m : List (List (Option ℚ))) : List (List ℚ) := m.filterMap rowDropna

/-- data_handler.calculate_daily_returns: `prices.pct_change().dropna()`.
No exception is raised on short inputs: a single-row (or empty) price frame
simply yields an empty returns frame. -/
def calculate_daily_returns (prices : List (List ℚ)) : List (List ℚ) :=
  dropna (pct_change prices)

/-- The fully-defined rows of the returns matrix, as plain rationals. -/
def pctRows (prev : List ℚ) : List (List ℚ) → List (List ℚ)
  | [] => []
  | r :: rs => List.zipWith (fun a b => b / a - 1) prev r :: pctRows r rs

theorem rowDropna_allNone (r : List ℚ) (hr : r ≠ []) :
    rowDropna (r.map (fun _ => (none : Option ℚ))) = none := by
  cases r with
  | nil => exact absurd rfl hr
  | cons a t => rfl

theorem rowDropna_zip : ∀ (u v : List ℚ),
    rowDropna (List.zipWith (fun a b => some (b / a - 1)) u v) =
      some (List.zipWith (fun a b => b / a - 1) u v) := by
  intro u
  induction u with
  | nil => intro v; cases v <;> rfl
  | cons a t ih =>
    intro v
    cases v with
    | nil => rfl
    | cons b s =>
      simp only [List.zipWith_cons_cons, rowDropna, ih, Option.map_some']

theorem dropna_pctFrom : ∀ (rs : List (List ℚ)) (prev : List ℚ),
    dropna (pctFrom prev rs) = pctRows prev rs := by
  intro rs
  induction rs with
  | nil => intro prev; rfl
  | cons r rest ih =>
    intro prev
    simp only [pctFrom, dropna, List.filterMap_cons, rowDropna_zip, pctRows]
    exact congrArg _ (ih r)

theorem cdr_cons (p0 : List ℚ) (rest : List (List ℚ)) (h : p0 ≠ []) :
    calculate_daily_returns (p0 :: rest) = pctRows p0 rest := by
  have hstep : calculate_daily_returns (p0 :: rest) =
      dropna ((p0.map (fun _ => (none : Option ℚ))) :: pctFrom p0 rest) := rfl
  rw [hstep]
  simp only [dropna, List.filterMap_cons, rowDropna_allNone p0 h]
  exact dropna_pctFrom rest p0

theorem pctRows_length : ∀ (rs : List (List ℚ)) (prev : List ℚ),
    (pctRows prev rs).length = rs.length := by
  intro rs
  induction rs with
  | nil => intro prev; rfl
  | cons r rest ih => intro prev; simp [pctRows, ih]

theorem pctRows_getD : ∀ (rs : List (List ℚ)) (prev : List ℚ) (t : ℕ),
    t < rs.length →
    (pctRows prev rs).getD t [] =
      List.zipWith (fun a b => b / a - 1) ((prev :: rs).getD t []) (rs.getD t []) := by
  intro rs
  induction rs with
  | nil => intro prev t ht; simp at ht
  | cons r rest ih =>
    intro prev t ht
    cases t with
    | zero => rfl
    | succ u =>
      simp only [pctRows, List.getD_cons_succ]
      exact ih r u (by simpa using ht)

/-- Claim C6 (confirmed): on a rectangular price frame with at least one
asset, at least two rows and no zero prices, calculate_daily_returns has
exactly one row fewer than the input and every entry (t, i) equals
price(t+1, i) / price(t, i) − 1; the output carries no NaN by construction
(only the all-NaN leading row of pct_change is dropped).  Zero prices are
excluded because a float 0/0 is NaN in pandas, which is outside this exact
model. -/
theorem C6_daily_returns (n : ℕ) (prices : List (List ℚ))
    (hrect : ∀ r ∈ prices, r.length = n) (hn : 1 ≤ n) (hT : 2 ≤ prices.length)
    (hpos : ∀ r ∈ prices, ∀ x ∈ r, x ≠ 0) :
    (calculate_daily_returns prices).length = prices.length - 1 ∧
    (∀ t i, t + 1 < prices.length → i < n →
      ((calculate_daily_returns prices).getD t []).getD i 0 =
        (prices.getD (t + 1) []).getD i 0 / (prices.getD t []).getD i 0 - 1) := by
  cases prices with
  | nil => simp at hT
  | cons p0 rest =>
    have hp0 : p0 ≠ [] := by
      have hl : p0.length = n := hrect p0 (List.mem_cons_self p0 rest)
      intro hnil
      rw [hnil] at hl
      simp at hl
      omega
    rw [cdr_cons p0 rest hp0]
    constructor
    · simp [pctRows_length]
    · intro t i ht hi
      have ht' : t < rest.length := by simpa using ht
      rw [pctRows_getD rest p0 t ht']
      have hprev : ((p0 :: rest).getD t []).length = n :=
        hrect _ (getD_mem (p0 :: rest) t [] (by simpa using Nat.lt_of_succ_lt ht))
      have hcur : (rest.getD t []).length = n :=
        hrect _ (List.mem_cons_of_mem p0 (getD_mem rest t [] ht'))
      rw [getD_zipWith_of_lt (fun a b => b / a - 1) _ _ i (by rw [hprev]; omega)
        (by rw [hcur]; omega)]
      rw [List.getD_cons_succ]

/-- Witness for C6_daily_returns on a concrete 2-day, 1-asset price frame. -/
theorem C6_daily_returns_witness :
    (∀ r ∈ ([[100], [110]] : List (List ℚ)), r.length = 1) ∧
    (∀ r ∈ ([[100], [110]] : List (List ℚ)), ∀ x ∈ r, x ≠ 0) ∧
    (calculate_daily_returns [[100], [110]]).length = 1 ∧
    ((calculate_daily_returns [[100], [110]]).getD 0 []).getD 0 0 =
      (([[100], [110]] : List (List ℚ)).getD 1 []).getD 0 0 /
        (([[100], [110]] : List (List ℚ)).getD 0 []).getD 0 0 - 1 := by
  have hrect : ∀ r ∈ ([[100], [110]] : List (List ℚ)), r.length = 1 := by
    simp [List.forall_mem_cons]
  have hpos : ∀ r ∈ ([[100], [110]] : List (List ℚ)), ∀ x ∈ r, x ≠ 0 := by
    simp [List.forall_mem_cons]
  refine ⟨hrect, hpos, ?_, ?_⟩
  · exact (C6_daily_returns 1 _ hrect (by norm_num) (by norm_num) hpos).1
  · exact (C6_daily_returns 1 _ hrect (by norm_num) (by norm_num) hpos).2 0 0
      (by norm_num) (by norm_num)

/-- Claim C7, counterexample: on a single-observation price frame the code
returns normally with an empty returns matrix; no InsufficientDataError (nor
any other exception) is raised — `calculate_daily_returns` is just
`pct_change().dropna()` with no length check. -/
theorem C7_cex : calculate_daily_returns [[100]] = ([] : List (List ℚ)) := rfl

/-- Claim C7 (amended): whenever fewer than 2 price observations are present
(and there is at least one asset column), calculate_daily_returns returns the
empty returns matrix instead of failing: the sole price row becomes the
all-NaN row of pct_change and is dropped by dropna. -/
theorem C7_short (n : ℕ) (prices : List (List ℚ)) (hn : 1 ≤ n)
    (hrect : ∀ r ∈ prices, r.length = n) (hT : prices.length ≤ 1) :
    calculate_daily_returns prices = [] := by
  cases prices with
  | nil => rfl
  | cons p0 rest =>
    cases rest with
    | nil =>
      have hp0 : p0 ≠ [] := by
        have hl : p0.length = n := hrect p0 (List.mem_cons_self p0 [])
        intro hnil
        rw [hnil] at hl
        simp at hl
        omega
      rw [cdr_cons p0 [] hp0]
      rfl
    | cons r rs => simp at hT

/-- Witness for C7_short on a one-row, two-asset price frame. -/
theorem C7_short_witness :
    (∀ r ∈ ([[100, 200]] : List (List ℚ)), r.length = 2) ∧
    calculate_daily_returns [[100, 200]] = [] := by
  have hrect : ∀ r ∈ ([[100, 200]] : List (List ℚ)), r.length = 2 := by
    simp [List.forall_mem_cons]
  exact ⟨hrect, C7_short 2 _ (by norm_num) hrect (by norm_num)⟩

theorem dotRow_cons (a c : ℚ) (t u : List ℚ) :
    dotRow (a :: t) (c :: u) = a * c + dotRow t u := by
  simp [dotRow, List.zipWith_cons_cons, List.sum_cons]

theorem dotRow_eq_sum (n : ℕ) : ∀ (r w : List ℚ), r.length = n → w.length = n →
    dotRow r w = ∑ i ∈ Finset.range n, r.getD i 0 * w.getD i 0 := by
  induction n with
  | zero =>
    intro r w hr hw
    rw [List.length_eq_zero] at hr hw
    subst hr; subst hw
    simp [dotRow]
  | succ m ih =>
    intro r w hr hw
    cases r with
    | nil => simp at hr
    | cons a r' =>
      cases w with
      | nil => simp at hw
      | cons b w' =>
        have hr' : r'.length = m := by simpa using hr
        have hw' : w'.length = m := by simpa using hw
        rw [dotRow_cons, ih r' w' hr' hw', Finset.sum_range_succ']
        simp only [List.getD_cons_succ, List.getD_cons_zero]
        ring

/-- Claim C8 (confirmed): calculate_portfolio_return fails with
DimensionMismatchError (the pandas broadcast ValueError) exactly when the
weight count differs from the column count; on matching lengths it returns
the series of rowwise dot products with the weight vector. -/
theorem C8_dimension (n : ℕ) (rows : List (List ℚ)) (w : List ℚ)
    (hrect : ∀ r ∈ rows, r.length = n) :
    (w.length ≠ n →
      calculate_portfolio_return n rows w = Except.error DHError.dimensionMismatch) ∧
    (w.length = n →
      calculate_portfolio_return n rows w = Except.ok (ptfSeries rows w) ∧
      ∀ t, t < rows.length →
        (ptfSeries rows w).getD t 0 =
          ∑ i ∈ Finset.range n, (rows.getD t []).getD i 0 * w.getD i 0) := by
  constructor
  · intro h
    unfold calculate_portfolio_return
    rw [if_neg h]
  · intro h
    constructor
    · unfold calculate_portfolio_return
      rw [if_pos h]
    · intro t ht
      have hrow : (rows.getD t []).length = n := hrect _ (getD_mem rows t [] ht)
      have hmap : (ptfSeries rows w).getD t 0 = dotRow (rows.getD t []) w := by
        unfold ptfSeries
        exact getD_map_of_lt (fun r => dotRow r w) [] 0 rows t ht
      rw [hmap]
      exact dotRow_eq_sum n _ w hrow h

/-- Witness for C8_dimension: a 1-row, 2-asset matrix, with a mismatched and
a matching weight vector. -/
theorem C8_dimension_witness :
    (∀ r ∈ ([[1/10, 2/10]] : List (List ℚ)), r.length = 2) ∧
    calculate_portfolio_return 2 [[1/10, 2/10]] [1] =
      Except.error DHError.dimensionMismatch ∧
    calculate_portfolio_return 2 [[1/10, 2/10]] [1/2, 1/2] =
      Except.ok (ptfSeries [[1/10, 2/10]] [1/2, 1/2]) := by
  have hrect : ∀ r ∈ ([[1/10, 2/10]] : List (List ℚ)), r.length = 2 := by
    simp [List.forall_mem_cons]
  refine ⟨hrect, ?_, ?_⟩
  · exact (C8_dimension 2 _ [1] hrect).1 (by norm_num)
  · exact ((C8_dimension 2 _ [1/2, 1/2] hrect).2 rfl).1

theorem dotRow_smul (k : ℚ) : ∀ (r w : List ℚ),
    dotRow r (w.map (fun x => k * x)) = k * dotRow r w := by
  intro r
  induction r with
  | nil => intro w; simp [dotRow]
  | cons a t ih =>
    intro w
    cases w with
    | nil => simp [dotRow]
    | cons b s =>
      rw [List.map_cons, dotRow_cons, dotRow_cons, ih]
      ring

/-- Claim C9 (confirmed): calculate_portfolio_return is linear in the weight
vector — scaling every weight by k scales the whole portfolio-return series
by k elementwise (and the error behaviour is unchanged, since scaling
preserves the length check). -/
theorem C9_linear (n : ℕ) (rows : List (List ℚ)) (w : List ℚ) (k : ℚ) :
    calculate_portfolio_return n rows (w.map (fun x => k * x)) =
      (calculate_portfolio_return n rows w).map (fun s => s.map (fun x => k * x)) := by
  unfold calculate_portfolio_return
  rw [List.length_map]
  by_cases h : w.length = n
  · rw [if_pos h, if_pos h]
    simp only [Except.map]
    unfold ptfSeries
    refine congrArg Except.ok ?_
    rw [List.map_map]
    refine List.map_congr_left ?_
    intro r _
    simp only [Function.comp_apply]
    exact dotRow_smul k r w
  · rw [if_neg h, if_neg h]
    rfl
